import Mathlib

/-!
Shallow embedding of the AGDR knowledge-graph construction core
(`src/core/models.py`, `src/clients/neo4j.py`, `src/clients/pgvector.py`,
`src/services/embed_service.py`, `src/services/conflict_resolution_service.py`,
`src/services/graph_population_service.py`,
`src/services/knowledge_graph_generator.py`).

The graph store and the vector store are modelled as explicit state; the
external capabilities (embedding, nearest-neighbour search, LLM arbitration,
reasoning, extraction) are modelled as oracles, since the engine's control
flow is a function of the values they return.  Similarity scores are rational
numbers.  A Python expression that would raise an uncaught exception
(an AttributeError on a missing node) is modelled by an `Option` result
being `none`.
-/

namespace AGDR

/-- Python truthiness of an optional string: `None` and the empty string are falsy. -/
def pyTruthy : Option String → Bool
  | none => false
  | some s => !(s == "")

/-- Python `x or d` for an optional string `x`: falls back to `d` when `x` is
`None` or empty. -/
def pyOr (x : Option String) (d : String) : String :=
  match x with
  | none => d
  | some s => if s == "" then d else s

/-- core/models.py Entity: id is an optional graph-node handle, name the mutable
display key. -/
structure Entity where
  id : Option String
  name : String
  description : String
  category : List String
deriving Repr, DecidableEq

/-- core/models.py Relationship: endpoints are referenced by entity name. -/
structure Relationship where
  source_entity_name : String
  target_entity_name : String
  relation_type : String
  attributes : List (String × String)
deriving Repr, DecidableEq

/-- core/models.py KnowledgeGraph: the per-iteration batch of entities and
relationships. -/
structure KnowledgeGraph where
  entities : List Entity
  relationships : List Relationship
deriving Repr, DecidableEq

/-- core/models.py ConflictResolutionResult: all fields optional. -/
structure ConflictResolutionResult where
  reasoning : Option String
  action : Option String
  new_name : Option String
  new_description : Option String
deriving Repr, DecidableEq

/-- A node of the Neo4j store: element id, name, description and labels. -/
structure Node where
  nid : String
  name : String
  description : String
  labels : List String
deriving Repr, DecidableEq

/-- An edge of the Neo4j store, keyed by source name, target name and type. -/
structure Edge where
  source : String
  target : String
  relType : String
  attrs : List (String × String)
deriving Repr, DecidableEq

/-- The Neo4j graph store: nodes, edges and a counter producing fresh element
ids. -/
structure GraphDB where
  nodes : List Node
  edges : List Edge
  nextId : Nat
deriving Repr, DecidableEq

/-- A row of the pgvector table: entity name (unique key) and raw description
text.  The two stored embedding vectors live with the external embedding
provider and are never inspected by the control flow modelled here. -/
structure VecRow where
  entity_name : String
  description : String
deriving Repr, DecidableEq

/-- The pgvector store. -/
abbrev VecStore := List VecRow

/-- A similarity match as returned by the nearest-neighbour queries:
(entity_name, description, score). -/
structure SimMatch where
  name : String
  description : String
  score : ℚ
deriving Repr, DecidableEq

/-- External collaborator capabilities (spec section 6).  `embedOk` tells
whether the embedding provider succeeds on a text; `simByName` and `simByDesc`
are the nearest-neighbour query results (none models a failed query);
`arbitrate` is the LLM arbitration response for a pair of entities (the prompt
is a function of the two entities and their subgraphs, so the response is
keyed on the pair); none models an API error or unparsable output, which
clients/openai.py conflict_resolution maps to None. -/
structure Oracle where
  embedOk : String → Bool
  simByName : String → Option (List SimMatch)
  simByDesc : String → String → Option (List SimMatch)
  arbitrate : Entity → Entity → Option ConflictResolutionResult

/-- clients/neo4j.py get_node_by_name: MATCH by name, first record, packaged as
an Entity whose id is the node's element id and whose categories are its
labels. -/
def get_node_by_name (db : GraphDB) (name : String) : Option Entity :=
  (db.nodes.find? (fun n => n.name == name)).map
    (fun n => { id := some n.nid, name := n.name, description := n.description, category := n.labels })

/-- clients/neo4j.py update_node_name_and_description.  Line 50 builds `query`
as a Python TUPLE of two strings (the comma splits the intended single Cypher
string), and `tx.run` rejects a non-string query by raising; the surrounding
try/except logs the error and returns.  The observable effect on the graph
store is therefore no change at all. -/
def update_node_name_and_description (db : GraphDB) (old_name new_name description : String) : GraphDB :=
  let _ := (old_name, new_name, description)
  db

/-- The update that clients/neo4j.py line 50 evidently intends (its docstring
says it updates the node), had the query been a single string: MATCH the nodes
carrying the old name, SET description and name. -/
def update_node_name_and_description_intended (db : GraphDB) (old_name new_name description : String) : GraphDB :=
  let upd := fun (n : Node) =>
    if n.name == old_name then { n with name := new_name, description := description } else n
  { db with nodes := db.nodes.map upd }

/-- Neo4j SET n:labels semantics: labels not yet present are added. -/
def mergeLabels (old new : List String) : List String :=
  old ++ new.filter (fun c => !(old.contains c))

/-- clients/neo4j.py create_node: MATCH by name first; when a node with the
name exists its labels are merged and its id returned, otherwise a fresh node
is created.  With an empty category list the interpolated Cypher
(`SET n:` respectively `CREATE (n: ...)`) is syntactically invalid, the driver
raises, the except block returns None and the store is unchanged. -/
def create_node (db : GraphDB) (e : Entity) : GraphDB × Option String :=
  if e.category.isEmpty then (db, none)
  else
    match db.nodes.find? (fun n => n.name == e.name) with
    | some n =>
      let upd := fun (m : Node) =>
        if m.nid == n.nid then { m with labels := mergeLabels m.labels e.category } else m
      ({ db with nodes := db.nodes.map upd }, some n.nid)
    | none =>
      let nid := toString db.nextId
      ({ db with nodes := db.nodes ++ [⟨nid, e.name, e.description, e.category⟩],
                 nextId := db.nextId + 1 },
       some nid)

/-- Python str.replace(c, "") for a one-character pattern: drop every
occurrence of the character. -/
def removeChar (c : Char) (s : String) : String :=
  String.mk (s.data.filter (fun x => !(x == c)))

/-- Sanitisation of the relationship type in clients/neo4j.py
create_relationship: the three one-character patterns backtick (code 96),
double quote (code 34) and single quote (code 39) are each replaced by the
empty string before interpolation into the query, which for one-character
patterns is exactly dropping every occurrence. -/
def sanitizeRelType (s : String) : String :=
  removeChar (Char.ofNat 39) (removeChar (Char.ofNat 34) (removeChar (Char.ofNat 96) s))

/-- Right-biased merge of property maps, modelling Cypher SET r += props. -/
def setAttrs (old new : List (String × String)) : List (String × String) :=
  old.filter (fun kv => (new.find? (fun kv2 => kv2.1 == kv.1)).isNone) ++ new

/-- clients/neo4j.py create_relationship: MATCH source and target by name,
MERGE the edge, SET its attributes.  When either endpoint name has no node the
MATCH yields no rows and the query writes nothing; every exception is caught
inside the method, so it never raises. -/
def create_relationship (db : GraphDB) (r : Relationship) : GraphDB :=
  let relType := sanitizeRelType r.relation_type
  if db.nodes.any (fun n => n.name == r.source_entity_name) &&
     db.nodes.any (fun n => n.name == r.target_entity_name) then
    if db.edges.any (fun e => e.source == r.source_entity_name &&
        e.target == r.target_entity_name && e.relType == relType) then
      let upd := fun (e : Edge) =>
        if e.source == r.source_entity_name && e.target == r.target_entity_name &&
            e.relType == relType then { e with attrs := setAttrs e.attrs r.attributes } else e
      { db with edges := db.edges.map upd }
    else
      { db with edges := db.edges ++ [⟨r.source_entity_name, r.target_entity_name, relType, r.attributes⟩] }
  else db

/-- clients/pgvector.py insert_embedding: INSERT ... ON CONFLICT (entity_name)
DO UPDATE, an upsert keyed by entity name. -/
def insert_embedding (vs : VecStore) (name desc : String) : VecStore :=
  if vs.any (fun r => r.entity_name == name) then
    vs.map (fun r => if r.entity_name == name then { r with description := desc } else r)
  else vs ++ [⟨name, desc⟩]

/-- clients/pgvector.py delete_embedding: DELETE the row of an entity name.
Only services/embed_service.py remove_entity calls it, and remove_entity is
never called from the population path. -/
def delete_embedding (vs : VecStore) (name : String) : VecStore :=
  vs.filter (fun r => !(r.entity_name == name))

/-- services/embed_service.py embed_entity: embed name and description; when
both embeddings succeed, upsert the row, otherwise store nothing. -/
def embed_entity (o : Oracle) (vs : VecStore) (name desc : String) : VecStore :=
  if o.embedOk name && o.embedOk desc then insert_embedding vs name desc else vs

/-- services/embed_service.py find_similar_entities_by_entity_name: when the
name embeds successfully, return the nearest-neighbour result; an empty result
list and a failed query are both returned as None. -/
def find_similar_entities_by_entity_name (o : Oracle) (name : String) : Option (List SimMatch) :=
  if o.embedOk name then
    match o.simByName name with
    | some l => if l.isEmpty then none else some l
    | none => none
  else none

/-- services/embed_service.py find_similar_entities_by_description: same shape
as the by-name query, keyed on the description embedding. -/
def find_similar_entities_by_description (o : Oracle) (name desc : String) : Option (List SimMatch) :=
  if o.embedOk desc then
    match o.simByDesc name desc with
    | some l => if l.isEmpty then none else some l
    | none => none
  else none

/-- services/graph_population_service.py add_entity lines 39 to 45: pool the two
similarity result lists, treating None and the empty list as falsy. -/
def combineMatches (byName byDesc : Option (List SimMatch)) : List SimMatch :=
  let l1 := byName.getD []
  let l2 := byDesc.getD []
  if !l1.isEmpty && !l2.isEmpty then l1 ++ l2
  else if !l1.isEmpty then l1
  else l2

/-- Stable insertion into a list sorted by score descending: the inserted
element goes after already-present elements of equal score, matching the
stability of Python list.sort with reverse=True. -/
def insertByScoreDesc (m : SimMatch) : List SimMatch → List SimMatch
  | [] => [m]
  | x :: xs => if m.score > x.score then m :: x :: xs else x :: insertByScoreDesc m xs

/-- Python similar_entities.sort(key score, reverse=True): stable descending
sort by score. -/
def sortByScoreDesc (l : List SimMatch) : List SimMatch :=
  l.foldl (fun acc m => insertByScoreDesc m acc) []

/-- The high-confidence auto-merge threshold 0.975 of
services/graph_population_service.py line 60 and
services/knowledge_graph_generator.py line 148, as the reduced fraction 39/40
(the constructor form lets the kernel evaluate comparisons). -/
def AUTO_MERGE_THRESHOLD : ℚ := Rat.mk' 39 40 (by decide) (by decide)

/-- The ambiguous-zone threshold 0.85 of
services/graph_population_service.py line 66 and
services/knowledge_graph_generator.py line 157, as the reduced fraction 17/20. -/
def ARBITRATION_THRESHOLD : ℚ := Rat.mk' 17 20 (by decide) (by decide)

/-- The pooled similarity matches that add_entity computes for an entity. -/
def pooledMatches (o : Oracle) (e : Entity) : List SimMatch :=
  combineMatches (find_similar_entities_by_entity_name o e.name)
    (find_similar_entities_by_description o e.name e.description)

/-- The most similar pooled match of an entity (head of the descending sort);
none when there are no matches. -/
def bestMatch (o : Oracle) (e : Entity) : Option SimMatch :=
  (sortByScoreDesc (pooledMatches o e)).head?

/-- The synthetic failure result of
services/conflict_resolution_service.py resolve_entity_conflict: when the LLM
client returns None, default to distinct with a fixed reasoning string. -/
def failedResolution : ConflictResolutionResult :=
  { reasoning := some "Failed to get a resolution from the LLM, defaulting to distinct."
  , action := some "distinct"
  , new_name := none
  , new_description := none }

/-- services/conflict_resolution_service.py resolve_entity_conflict: build the
comparison prompt (a function of the two entities and their subgraphs,
abstracted into the oracle) and ask the LLM; on an absent result fall back to
the synthetic distinct resolution.  This function never raises. -/
def resolve_entity_conflict (o : Oracle) (existing candidate : Entity) : ConflictResolutionResult :=
  match o.arbitrate existing candidate with
  | some r => r
  | none => failedResolution

/-- The combined mutable state threaded through the population engine: the
Neo4j graph store and the pgvector store. -/
structure PopState where
  db : GraphDB
  vs : VecStore
deriving Repr, DecidableEq

/-- Result of GraphPopulationService.add_entity: the updated stores, the
entity object after its in-place mutation, the returned entity id, and
whether the Conflict Arbiter was invoked. -/
structure AddResult where
  st : PopState
  entity : Entity
  entity_id : Option String
  arbiterCalled : Bool
deriving Repr, DecidableEq

/-- services/graph_population_service.py add_entity lines 98 to 108: when no
entity id was resolved, create the node and, on success, embed the entity
under its final name and description. -/
def createStep (o : Oracle) (st : PopState) (e : Entity) (eid : Option String)
    (arb : Bool) : AddResult :=
  if pyTruthy eid then ⟨st, e, eid, arb⟩
  else
    let (db2, nid) := create_node st.db e
    match nid with
    | some _ => ⟨⟨db2, embed_entity o st.vs e.name e.description⟩, e, nid, arb⟩
    | none => ⟨⟨db2, st.vs⟩, e, nid, arb⟩

/-- services/graph_population_service.py add_entity: similarity pooling,
threshold policy at 0.975 and 0.85, arbitration in the ambiguous zone, and
final node creation.  A none result models the AttributeError the Python code
raises when the best-match name has no graph node (None.id in the high branch,
existing_entity.name inside the resolver in the ambiguous branch). -/
def add_entity (o : Oracle) (st : PopState) (e : Entity) : Option AddResult :=
  match bestMatch o e with
  | none => some (createStep o st e none false)
  | some best =>
    if best.score ≥ AUTO_MERGE_THRESHOLD ∧ e.name ≠ best.name then
      match get_node_by_name st.db best.name with
      | none => none
      | some ex => some (createStep o st { e with name := best.name } ex.id false)
    else if best.score ≥ ARBITRATION_THRESHOLD then
      match get_node_by_name st.db best.name with
      | none => none
      | some ex =>
        let res := resolve_entity_conflict o ex e
        if res.action == some "same" then
          some (createStep o st { e with name := ex.name } ex.id true)
        else if res.action == some "merge" then
          let new_name := pyOr res.new_name ex.name
          let new_description := pyOr res.new_description ex.description
          let db2 := update_node_name_and_description st.db ex.name new_name new_description
          let vs2 := embed_entity o st.vs new_name new_description
          some (createStep o ⟨db2, vs2⟩ { e with name := new_name, description := new_description } ex.id true)
        else
          some (createStep o st e none true)
    else
      some (createStep o st e none false)

/-- services/graph_population_service.py add_relationship: delegate to the
graph store; create_relationship catches every exception, so this always
returns True. -/
def add_relationship (st : PopState) (r : Relationship) : PopState × Bool :=
  ({ st with db := create_relationship st.db r }, true)

/-- Association-list insert with Python dict overwrite semantics. -/
def dictInsert (d : List (String × String)) (k v : String) : List (String × String) :=
  if d.any (fun p => p.1 == k) then d.map (fun p => if p.1 == k then (k, v) else p)
  else d ++ [(k, v)]

/-- Association-list lookup. -/
def dictGet? (d : List (String × String)) (k : String) : Option String :=
  (d.find? (fun p => p.1 == k)).map (fun p => p.2)

/-- services/graph_population_service.py merge_knowledge_graph entity loop:
process entities in order, recording original name to final name in
name_updates whenever add_entity changed the name. -/
def processEntities (o : Oracle) :
    PopState → List Entity → List (String × String) →
    Option (PopState × List Entity × List (String × String))
  | st, [], updates => some (st, [], updates)
  | st, e :: rest, updates =>
    match add_entity o st e with
    | none => none
    | some r =>
      let updates2 := if r.entity.name ≠ e.name then dictInsert updates e.name r.entity.name else updates
      match processEntities o r.st rest updates2 with
      | none => none
      | some (st2, es, u) => some (st2, r.entity :: es, u)

/-- services/graph_population_service.py merge_knowledge_graph relationship
rewrite: an endpoint found in name_updates is replaced by its final name. -/
def rewriteRel (updates : List (String × String)) (r : Relationship) : Relationship :=
  let s := (dictGet? updates r.source_entity_name).getD r.source_entity_name
  let t := (dictGet? updates r.target_entity_name).getD r.target_entity_name
  { r with source_entity_name := s, target_entity_name := t }

/-- services/graph_population_service.py merge_knowledge_graph: first resolve
every entity of the batch, accumulating the name-rewrite map, then rewrite and
commit every relationship, and return the mutated batch. -/
def merge_knowledge_graph (o : Oracle) (st : PopState) (kg : KnowledgeGraph) :
    Option (PopState × KnowledgeGraph) :=
  match processEntities o st kg.entities [] with
  | none => none
  | some (st1, ents, updates) =>
    let rels := kg.relationships.map (rewriteRel updates)
    let st2 := rels.foldl (fun s r => (add_relationship s r).1) st1
    some (st2, ⟨ents, rels⟩)

/-- Relationship endpoint rewrite used throughout
services/knowledge_graph_generator.py: every source or target equal to the old
name becomes the new name. -/
def rewriteEndpoints (old new : String) (rels : List Relationship) : List Relationship :=
  rels.map (fun r =>
    let r1 := if r.source_entity_name == old then { r with source_entity_name := new } else r
    if r1.target_entity_name == old then { r1 with target_entity_name := new } else r1)

/-- services/entity_service.py update_entity: embed under the new name, then
ask Neo4j to rename the node carrying the old name (a no-op, see
update_node_name_and_description). -/
def update_entity (o : Oracle) (st : PopState) (old_name new_name description : String) : PopState :=
  { db := update_node_name_and_description st.db old_name new_name description
  , vs := embed_entity o st.vs new_name description }

/-- services/knowledge_graph_generator.py resolve_entity_insertion_conflict:
ask the arbitration capability about the existing entity (concept A) and the
new entity (concept B); on "same" alias B to A's name and rewrite the batch
relationships; on "merge" rename the existing entity, alias B to the merged
name and rewrite B's references; on "distinct" with a suggested new name
longer than three characters rename the candidate and rewrite its references;
otherwise leave everything unchanged.  Returns the updated stores, the batch
(with rewritten relationships) and the new entity after its in-place name
mutation. -/
def resolve_entity_insertion_conflict (o : Oracle) (st : PopState) (kg : KnowledgeGraph)
    (existing ne : Entity) : PopState × KnowledgeGraph × Entity :=
  let conceptA := existing.name
  let conceptB := ne.name
  match o.arbitrate existing ne with
  | none => (st, kg, ne)
  | some res =>
    if res.action == some "same" then
      (st, { kg with relationships := rewriteEndpoints conceptB conceptA kg.relationships },
       { ne with name := conceptA })
    else if res.action == some "merge" then
      let new_name := pyOr res.new_name existing.name
      let new_description := pyOr res.new_description existing.description
      let st2 := update_entity o st existing.name new_name new_description
      (st2, { kg with relationships := rewriteEndpoints conceptB new_name kg.relationships },
       { ne with name := new_name })
    else if res.action == some "distinct" then
      match res.new_name with
      | some s =>
        if s ≠ "" ∧ s.length > 3 then
          let new_description := pyOr res.new_description ne.description
          let st2 := update_entity o st ne.name s new_description
          (st2, { kg with relationships := rewriteEndpoints conceptB s kg.relationships },
           { ne with name := s })
        else (st, kg, ne)
      | none => (st, kg, ne)
    else (st, kg, ne)

/-- services/knowledge_graph_generator.py merge_knowledge_graph body for one
entity: pool and sort the similarity matches; at score 0.975 or more with a
different name, alias the entity and rewrite the batch relationships; in the
ambiguous zone fetch the existing node (none models the AttributeError raised
inside resolve_entity_insertion_conflict when it is absent) and resolve the
conflict; then always create the node and, on success, set the id and embed. -/
def kggProcessEntity (o : Oracle) (st : PopState) (kg : KnowledgeGraph) (e : Entity) :
    Option (PopState × KnowledgeGraph × Entity) :=
  let step1 : Option (PopState × KnowledgeGraph × Entity) :=
    match bestMatch o e with
    | none => some (st, kg, e)
    | some best =>
      if best.score ≥ AUTO_MERGE_THRESHOLD ∧ e.name ≠ best.name then
        some (st, { kg with relationships := rewriteEndpoints e.name best.name kg.relationships },
              { e with name := best.name })
      else if best.score ≥ ARBITRATION_THRESHOLD then
        match get_node_by_name st.db best.name with
        | none => none
        | some ex => some (resolve_entity_insertion_conflict o st kg ex e)
      else some (st, kg, e)
  match step1 with
  | none => none
  | some (st1, kg1, e1) =>
    let (db2, nid) := create_node st1.db e1
    match nid with
    | some _ => some (⟨db2, embed_entity o st1.vs e1.name e1.description⟩, kg1, { e1 with id := nid })
    | none => some (⟨db2, st1.vs⟩, kg1, e1)

/-- The entity loop of services/knowledge_graph_generator.py
merge_knowledge_graph, threading the stores and the batch (whose relationship
list is rewritten in place) and collecting the mutated entities. -/
def kggProcessEntities (o : Oracle) :
    PopState → KnowledgeGraph → List Entity →
    Option (PopState × KnowledgeGraph × List Entity)
  | st, kg, [] => some (st, kg, [])
  | st, kg, e :: rest =>
    match kggProcessEntity o st kg e with
    | none => none
    | some (st1, kg1, e1) =>
      match kggProcessEntities o st1 kg1 rest with
      | none => none
      | some (st2, kg2, es) => some (st2, kg2, e1 :: es)

/-- services/knowledge_graph_generator.py merge_knowledge_graph: resolve every
entity (rewriting the batch relationships as resolutions happen), then commit
every relationship through the graph store. -/
def kgg_merge_knowledge_graph (o : Oracle) (st : PopState) (kg : KnowledgeGraph) :
    Option (PopState × KnowledgeGraph) :=
  match kggProcessEntities o st kg kg.entities with
  | none => none
  | some (st1, kg1, ents) =>
    let st2 := kg1.relationships.foldl (fun s r => { s with db := create_relationship s.db r }) st1
    some (st2, { entities := ents, relationships := kg1.relationships })

/-- One record of clients/neo4j.py find_longest_shortest_paths: a pair of
nodes at locally maximal graph distance. -/
structure LSPath where
  startNodeName : String
  startNodeDescription : String
  endNodeName : String
  endNodeDescription : String
  shortestPathLength : Nat
deriving Repr, DecidableEq

/-- The exploration prompt template of
services/knowledge_graph_generator.py run_kg_generation_iterations. -/
def explorationPrompt (name desc : String) : String :=
  "Given the concept of \x27" ++ name ++ " (" ++ desc ++
    ")\x27, what related concepts and relationships can be explored to expand our knowledge graph?"

/-- The scheduling step at the top of each iteration of
run_kg_generation_iterations: when the longest-shortest-path query returned a
non-empty list, pick one path at random (modelled by an index, reduced modulo
the length), take its end node unless that equals the previous target, in
which case take its start node; remember the choice and build the exploration
prompt from it.  When the query returned None or an empty list, the prompt and
the previous target are left unchanged. -/
def scheduleStep (paths : Option (List LSPath)) (choice : Nat) (prompt : String)
    (previous : Option String) : String × Option String :=
  match paths with
  | none => (prompt, previous)
  | some ps =>
    if h : ps.length > 0 then
      let path := ps.get ⟨choice % ps.length, Nat.mod_lt choice h⟩
      let pick :=
        if previous == some path.endNodeName then (path.startNodeName, path.startNodeDescription)
        else (path.endNodeName, path.endNodeDescription)
      (explorationPrompt pick.1 pick.2, some pick.1)
    else (prompt, previous)

/-- Per-iteration external inputs of the run loop: the longest-shortest-path
query result, the random path choice, the reasoning capability's trace for the
scheduled prompt, and the extraction capability's structured result for the
trace (none models both an API failure and unparsable output). -/
structure IterOracle where
  lsPaths : Nat → Option (List LSPath)
  choice : Nat → Nat
  reasoning : Nat → String → Option String
  extract : Nat → String → Option KnowledgeGraph

/-- Outcome of one iteration body: the exploration state after the scheduling
step, the stores, and whether the iteration hit the fatal no-reasoning-trace
condition that breaks the loop. -/
structure IterOutcome where
  prompt : String
  previous : Option String
  st : PopState
  fatal : Bool
deriving Repr, DecidableEq

/-- One iteration of run_kg_generation_iterations: schedule, then ask for a
reasoning trace — the source checks Python truthiness (if not reasoning_trace),
so an absent trace AND an empty (stripped) trace string are both fatal and
break the loop — then extract (absence or an empty entity list merely skips
the merge), then merge the extracted batch (a none result models an uncaught
exception inside the merge). -/
def iterBody (o : Oracle) (io : IterOracle) (i : Nat) (prompt : String)
    (previous : Option String) (st : PopState) : Option IterOutcome :=
  let sp := scheduleStep (io.lsPaths i) (io.choice i) prompt previous
  match io.reasoning i sp.1 with
  | none => some ⟨sp.1, sp.2, st, true⟩
  | some trace =>
    if trace == "" then some ⟨sp.1, sp.2, st, true⟩
    else
      match io.extract i trace with
      | none => some ⟨sp.1, sp.2, st, false⟩
      | some kg =>
        if kg.entities.isEmpty then some ⟨sp.1, sp.2, st, false⟩
        else
          match kgg_merge_knowledge_graph o st kg with
          | none => none
          | some (st2, _) => some ⟨sp.1, sp.2, st2, false⟩

/-- Final state of a run: exploration state, stores and the number of
iterations that completed their body without hitting the fatal break. -/
structure RunResult where
  prompt : String
  previous : Option String
  st : PopState
  completed : Nat
deriving Repr, DecidableEq

/-- services/knowledge_graph_generator.py run_kg_generation_iterations,
written as a countdown over the remaining iterations with the current
iteration index threaded: run the body; on the fatal condition stop at once
(the Python break), otherwise continue with the updated exploration state and
stores. -/
def runIters (o : Oracle) (io : IterOracle) :
    Nat → Nat → String → Option String → PopState → Option RunResult
  | _, 0, prompt, previous, st => some ⟨prompt, previous, st, 0⟩
  | i, n + 1, prompt, previous, st =>
    match iterBody o io i prompt previous st with
    | none => none
    | some out =>
      if out.fatal then some ⟨out.prompt, out.previous, out.st, 0⟩
      else
        match runIters o io (i + 1) n out.prompt out.previous out.st with
        | none => none
        | some r => some { r with completed := r.completed + 1 }

/-! Concrete scenario used by several claims: an existing graph with nodes
A, C and D, a batch bringing the known entity A and a new entity B whose best
pooled similarity to A is 0.9, and an arbitration capability that merges A and
B into AB.  The batch carries the relationships B to C and A to D. -/

/-- Existing graph store: nodes A, C, D. -/
def scenarioDB : GraphDB :=
  { nodes := [⟨"0", "A", "descA", ["Concept"]⟩, ⟨"1", "C", "descC", ["Concept"]⟩,
              ⟨"2", "D", "descD", ["Concept"]⟩]
  , edges := []
  , nextId := 3 }

/-- Existing vector store rows for A, C, D. -/
def scenarioVS : VecStore :=
  [⟨"A", "descA"⟩, ⟨"C", "descC"⟩, ⟨"D", "descD"⟩]

/-- Combined store state of the scenario. -/
def scenarioSt : PopState := ⟨scenarioDB, scenarioVS⟩

/-- The batch entity A, already present in the graph. -/
def entityA : Entity := ⟨none, "A", "descA", ["Concept"]⟩

/-- The batch entity B, new, similar to A. -/
def entityB : Entity := ⟨none, "B", "descB", ["Concept"]⟩

/-- The similarity score 0.9 of the scenario, as the reduced fraction 9/10. -/
def score09 : ℚ := Rat.mk' 9 10 (by decide) (by decide)

/-- Arbitration answer of the scenario: merge into AB. -/
def mergeResolution : ConflictResolutionResult :=
  ⟨some "same broad concept", some "merge", some "AB", some "descAB"⟩

/-- Oracle of the scenario: embedding always succeeds, B's name lookup finds A
at similarity 0.9, everything else finds nothing, and arbitrating A against B
returns the merge into AB. -/
def scenarioOracle : Oracle :=
  { embedOk := fun _ => true
  , simByName := fun n => if n == "B" then some [⟨"A", "descA", score09⟩] else none
  , simByDesc := fun _ _ => none
  , arbitrate := fun ex ne =>
      if ex.name == "A" && ne.name == "B" then some mergeResolution else none }

/-- The extraction batch of the scenario. -/
def scenarioBatch : KnowledgeGraph :=
  { entities := [entityA, entityB]
  , relationships := [⟨"B", "C", "rel", []⟩, ⟨"A", "D", "rel", []⟩] }

/-- The similarity score 0.974, as the reduced fraction 487/500. -/
def score0974 : ℚ := Rat.mk' 487 500 (by decide) (by decide)

/-- Oracle placing B at similarity exactly 0.975 to A; arbitration never
answers. -/
def oracleAt975 : Oracle :=
  { embedOk := fun _ => true
  , simByName := fun n => if n == "B" then some [⟨"A", "descA", AUTO_MERGE_THRESHOLD⟩] else none
  , simByDesc := fun _ _ => none
  , arbitrate := fun _ _ => none }

/-- Oracle placing B at similarity 0.974 to A; arbitration never answers, so
the conflict resolver must fall back to its synthetic distinct result. -/
def oracleAt974 : Oracle :=
  { embedOk := fun _ => true
  , simByName := fun n => if n == "B" then some [⟨"A", "descA", score0974⟩] else none
  , simByDesc := fun _ _ => none
  , arbitrate := fun _ _ => none }

/-- An existing entity named Alpha, as fetched from the graph store. -/
def exAlpha : Entity := ⟨some "0", "Alpha", "descAlpha", ["Concept"]⟩

/-- A batch holding only the relationship B to C, for the distinct-rename
scenarios. -/
def kgBC : KnowledgeGraph := ⟨[], [⟨"B", "C", "rel", []⟩]⟩

/-- Oracle whose arbitration answers distinct with the short suggested name
Xy (two characters, different from the existing name). -/
def oracleDistinctShort : Oracle :=
  { embedOk := fun _ => true
  , simByName := fun _ => none
  , simByDesc := fun _ _ => none
  , arbitrate := fun _ _ => some ⟨some "unsure", some "distinct", some "Xy", none⟩ }

/-- Oracle whose arbitration answers distinct with the suggested name Beta5
(five characters). -/
def oracleDistinctLong : Oracle :=
  { embedOk := fun _ => true
  , simByName := fun _ => none
  , simByDesc := fun _ _ => none
  , arbitrate := fun _ _ => some ⟨some "rename", some "distinct", some "Beta5", some "descBeta"⟩ }

/-- A relationship whose source name X has no node in the scenario graph. -/
def relXC : Relationship := ⟨"X", "C", "rel", []⟩

/-- A longest-shortest path between nodes S and E. -/
def pathSE : LSPath := ⟨"S", "descS", "E", "descE", 2⟩

/-- Iteration oracle whose reasoning always answers and whose extraction
always fails: every round completes without graph changes. -/
def ioAlways : IterOracle :=
  { lsPaths := fun _ => none
  , choice := fun _ => 0
  , reasoning := fun _ _ => some "trace"
  , extract := fun _ _ => none }

/-- Iteration oracle whose reasoning answers a non-empty trace at iteration 0
and the empty string from iteration 1 on: an empty stripped trace is falsy in
Python and stops the run just like an absent one. -/
def ioFailAt1 : IterOracle :=
  { lsPaths := fun _ => none
  , choice := fun _ => 0
  , reasoning := fun i _ => if i == 0 then some "trace" else some ""
  , extract := fun _ _ => none }

/-! Sanity lemmas connecting the constructor-form constants to the source's
decimal literals. -/

/-- The auto-merge threshold constant is the source literal 0.975. -/
theorem AUTO_MERGE_THRESHOLD_eq : AUTO_MERGE_THRESHOLD = (0.975 : ℚ) := by
  unfold AUTO_MERGE_THRESHOLD
  rw [Rat.mk'_eq_divInt, Rat.divInt_eq_div]
  norm_num

/-- The arbitration threshold constant is the source literal 0.85. -/
theorem ARBITRATION_THRESHOLD_eq : ARBITRATION_THRESHOLD = (0.85 : ℚ) := by
  unfold ARBITRATION_THRESHOLD
  rw [Rat.mk'_eq_divInt, Rat.divInt_eq_div]
  norm_num

/-- The scenario score constant is the literal 0.9. -/
theorem score09_eq : score09 = (0.9 : ℚ) := by
  unfold score09
  rw [Rat.mk'_eq_divInt, Rat.divInt_eq_div]
  norm_num

/-- The score constant of the below-threshold experiments is the literal
0.974. -/
theorem score0974_eq : score0974 = (0.974 : ℚ) := by
  unfold score0974
  rw [Rat.mk'_eq_divInt, Rat.divInt_eq_div]
  norm_num

/-! Helper lemmas about the store operations. -/

/-- A successful node fetch exhibits a stored node with the requested name. -/
theorem mem_names_of_get (db : GraphDB) (name : String) (ex : Entity)
    (h : get_node_by_name db name = some ex) :
    ∃ n ∈ db.nodes, n.name = name ∧ ex.id = some n.nid ∧ ex.name = n.name := by
  unfold get_node_by_name at h
  cases hf : db.nodes.find? (fun n => n.name == name) with
  | none => rw [hf] at h; exact absurd h (by simp)
  | some n =>
    rw [hf] at h
    simp only [Option.map_some', Option.some.injEq] at h
    refine ⟨n, List.mem_of_find?_eq_some hf, ?_, ?_, ?_⟩
    · have := List.find?_some hf
      simpa using this
    · rw [← h]
    · rw [← h]

/-- create_node never changes the stored names when the entity's name is
already present: only labels can change. -/
theorem create_node_preserves_names (db : GraphDB) (e : Entity)
    (h : e.name ∈ db.nodes.map Node.name) :
    (create_node db e).1.nodes.map Node.name = db.nodes.map Node.name := by
  unfold create_node
  split
  · rfl
  · cases hf : db.nodes.find? (fun n => n.name == e.name) with
    | none =>
      exfalso
      obtain ⟨n, hn, hname⟩ := List.mem_map.mp h
      have := List.find?_eq_none.mp hf n hn
      simp [hname] at this
    | some n =>
      simp only [List.map_map]
      apply List.map_congr_left
      intro m _
      by_cases hm : m.nid = n.nid <;> simp [hm]

/-- create_node on a fresh name with a non-empty category list appends a node
under the fresh id. -/
theorem create_node_fresh (db : GraphDB) (e : Entity)
    (hfresh : e.name ∉ db.nodes.map Node.name) (hcat : e.category ≠ []) :
    create_node db e =
      ({ db with nodes := db.nodes ++ [⟨toString db.nextId, e.name, e.description, e.category⟩],
                 nextId := db.nextId + 1 },
       some (toString db.nextId)) := by
  unfold create_node
  rw [if_neg (by simpa using hcat)]
  cases hf : db.nodes.find? (fun n => n.name == e.name) with
  | some n =>
    exfalso
    have h1 := List.find?_some hf
    have h2 := List.mem_of_find?_eq_some hf
    exact hfresh (List.mem_map.mpr ⟨n, h2, by simpa using h1⟩)
  | none => rfl

/-- createStep never mutates the entity object. -/
theorem createStep_entity (o : Oracle) (st : PopState) (e : Entity)
    (eid : Option String) (arb : Bool) : (createStep o st e eid arb).entity = e := by
  unfold createStep
  split
  · rfl
  · rcases hc : create_node st.db e with ⟨db2, nid⟩
    cases nid <;> rfl

/-- createStep keeps the arbitration flag it is given. -/
theorem createStep_arb (o : Oracle) (st : PopState) (e : Entity)
    (eid : Option String) (arb : Bool) : (createStep o st e eid arb).arbiterCalled = arb := by
  unfold createStep
  split
  · rfl
  · rcases hc : create_node st.db e with ⟨db2, nid⟩
    cases nid <;> rfl

/-- createStep preserves the stored node names when the entity id is truthy
(no creation) or the name is already stored (idempotent create). -/
theorem createStep_preserves_names (o : Oracle) (st : PopState) (e : Entity)
    (eid : Option String) (arb : Bool)
    (h : pyTruthy eid = true ∨ e.name ∈ st.db.nodes.map Node.name) :
    (createStep o st e eid arb).st.db.nodes.map Node.name = st.db.nodes.map Node.name := by
  unfold createStep
  split
  · rfl
  · next hpt =>
    have hmem : e.name ∈ st.db.nodes.map Node.name := by
      rcases h with h | h
      · exact absurd h hpt
      · exact h
    rcases hc : create_node st.db e with ⟨db2, nid⟩
    have hn := create_node_preserves_names st.db e hmem
    rw [hc] at hn
    cases nid <;> simpa using hn

/-- In the ambiguous zone (best score below the auto-merge threshold, at or
above the arbitration threshold) with the matched node present, add_entity
reduces to the arbitrated branch: the resolver's action selects between
aliasing, merging and the distinct fall-through, each completed by
createStep with the arbitration flag set. -/
theorem add_entity_arbitration_branch (o : Oracle) (st : PopState) (e : Entity)
    (best : SimMatch) (ex : Entity)
    (hbest : bestMatch o e = some best)
    (hlow : best.score < AUTO_MERGE_THRESHOLD)
    (hhigh : ARBITRATION_THRESHOLD ≤ best.score)
    (hex : get_node_by_name st.db best.name = some ex) :
    add_entity o st e =
      (if (resolve_entity_conflict o ex e).action == some "same" then
        some (createStep o st { e with name := ex.name } ex.id true)
      else if (resolve_entity_conflict o ex e).action == some "merge" then
        some (createStep o
          ⟨update_node_name_and_description st.db ex.name
              (pyOr (resolve_entity_conflict o ex e).new_name ex.name)
              (pyOr (resolve_entity_conflict o ex e).new_description ex.description),
           embed_entity o st.vs (pyOr (resolve_entity_conflict o ex e).new_name ex.name)
              (pyOr (resolve_entity_conflict o ex e).new_description ex.description)⟩
          { e with name := pyOr (resolve_entity_conflict o ex e).new_name ex.name,
                   description := pyOr (resolve_entity_conflict o ex e).new_description ex.description }
          ex.id true)
      else some (createStep o st e none true)) := by
  have h1 : ¬(best.score ≥ AUTO_MERGE_THRESHOLD ∧ e.name ≠ best.name) :=
    fun hcontra => absurd hcontra.1 (not_le.mpr hlow)
  unfold add_entity
  rw [hbest]
  simp only [if_neg h1, if_pos hhigh, hex]

/-- Rewriting descriptions of the rows named `name` does not change which row
is found first under a different name `m`, nor that row itself. -/
theorem find_map_upsert_other (l : List VecRow) (name desc m : String)
    (hne : (name == m) = false) :
    (l.map (fun r => if r.entity_name == name then { r with description := desc } else r)).find?
      (fun row => row.entity_name == m) = l.find? (fun row => row.entity_name == m) := by
  induction l with
  | nil => rfl
  | cons a l ih =>
    by_cases ha : a.entity_name = name
    · have hpa : (a.entity_name == m) = false := by rw [ha]; exact hne
      rw [List.map_cons, if_pos (show (a.entity_name == name) = true by simp [ha])]
      simp only [List.find?, hpa]
      exact ih
    · rw [List.map_cons, if_neg (show ¬(a.entity_name == name) = true by simp [ha])]
      cases hm : a.entity_name == m with
      | true => simp only [List.find?, hm]
      | false =>
        simp only [List.find?, hm]
        exact ih

/-- Appending a row under a different name does not change which row is found
first under `m`. -/
theorem find_append_single_other (l : List VecRow) (name desc m : String)
    (hne : (name == m) = false) :
    (l ++ [(⟨name, desc⟩ : VecRow)]).find? (fun row => row.entity_name == m) =
      l.find? (fun row => row.entity_name == m) := by
  induction l with
  | nil => simp [List.find?, hne]
  | cons a l ih =>
    cases hm : a.entity_name == m with
    | true => simp only [List.cons_append, List.find?, hm]
    | false =>
      simp only [List.cons_append, List.find?, hm]
      exact ih

/-- When some row carries `name`, the description rewrite makes the first row
found under `name` the freshly written pair. -/
theorem find_map_upsert_self (l : List VecRow) (name desc : String)
    (hany : (l.any fun r => r.entity_name == name) = true) :
    (l.map (fun r => if r.entity_name == name then { r with description := desc } else r)).find?
      (fun row => row.entity_name == name) = some ⟨name, desc⟩ := by
  induction l with
  | nil => simp at hany
  | cons a l ih =>
    by_cases ha : a.entity_name = name
    · rw [List.map_cons, if_pos (show (a.entity_name == name) = true by simp [ha])]
      simp [List.find?, ha]
    · rw [List.map_cons, if_neg (show ¬(a.entity_name == name) = true by simp [ha])]
      simp only [List.find?, show (a.entity_name == name) = false by simp [ha]]
      apply ih
      simpa [ha] using hany

/-- When no row carries `name`, the appended row is the one found under
`name`. -/
theorem find_append_single_self (l : List VecRow) (name desc : String)
    (hall : ∀ a ∈ l, (a.entity_name == name) = false) :
    (l ++ [(⟨name, desc⟩ : VecRow)]).find? (fun row => row.entity_name == name) =
      some ⟨name, desc⟩ := by
  induction l with
  | nil => simp [List.find?]
  | cons a l ih =>
    simp only [List.cons_append, List.find?, hall a (by simp)]
    exact ih (fun b hb => hall b (by simp [hb]))

/-- The upsert leaves every row stored under a different name untouched: the
first row found under another name is the same before and after. -/
theorem insert_embedding_find_other (vs : VecStore) (name desc m : String)
    (hne : (name == m) = false) :
    (insert_embedding vs name desc).find? (fun row => row.entity_name == m) =
      vs.find? (fun row => row.entity_name == m) := by
  unfold insert_embedding
  split
  · exact find_map_upsert_other vs name desc m hne
  · exact find_append_single_other vs name desc m hne

/-- After the upsert the row under the inserted name is exactly the inserted
pair. -/
theorem insert_embedding_find_self (vs : VecStore) (name desc : String) :
    (insert_embedding vs name desc).find? (fun row => row.entity_name == name) =
      some ⟨name, desc⟩ := by
  unfold insert_embedding
  split
  · next hany => exact find_map_upsert_self vs name desc hany
  · next hany =>
    apply find_append_single_self
    intro a hmem
    by_contra hcon
    simp only [Bool.not_eq_false] at hcon
    exact hany (List.any_eq_true.mpr ⟨a, hmem, hcon⟩)

/-- The upsert never removes a name: every stored name is still stored. -/
theorem insert_embedding_names (vs : VecStore) (name desc : String) :
    (insert_embedding vs name desc).map VecRow.entity_name = vs.map VecRow.entity_name ∨
    (insert_embedding vs name desc).map VecRow.entity_name = vs.map VecRow.entity_name ++ [name] := by
  unfold insert_embedding
  split
  · left
    rw [List.map_map]
    apply List.map_congr_left
    intro a _
    by_cases h : a.entity_name = name <;> simp [h]
  · right
    simp

/-- embed_entity is either the upsert (both embeddings succeeded) or leaves
the store unchanged. -/
theorem embed_entity_cases (o : Oracle) (vs : VecStore) (name desc : String) :
    embed_entity o vs name desc = insert_embedding vs name desc ∨
    embed_entity o vs name desc = vs := by
  unfold embed_entity
  split
  · exact Or.inl rfl
  · exact Or.inr rfl

/-- When both embeddings succeed, embed_entity is exactly the upsert. -/
theorem embed_entity_ok (o : Oracle) (vs : VecStore) (name desc : String)
    (h1 : o.embedOk name = true) (h2 : o.embedOk desc = true) :
    embed_entity o vs name desc = insert_embedding vs name desc := by
  unfold embed_entity
  rw [if_pos (by simp [h1, h2])]

/-- When the reasoning capability returns a falsy trace for the scheduled
prompt — nothing at all, or the empty string, which Python's
`if not reasoning_trace` treats alike — the iteration body stops the loop with
the fatal flag and no store change. -/
theorem iterBody_reasoning_falsy (o : Oracle) (io : IterOracle) (i : Nat)
    (prompt : String) (previous : Option String) (st : PopState)
    (h : pyTruthy (io.reasoning i
          (scheduleStep (io.lsPaths i) (io.choice i) prompt previous).1) = false) :
    iterBody o io i prompt previous st =
      some ⟨(scheduleStep (io.lsPaths i) (io.choice i) prompt previous).1,
            (scheduleStep (io.lsPaths i) (io.choice i) prompt previous).2, st, true⟩ := by
  cases hr : io.reasoning i (scheduleStep (io.lsPaths i) (io.choice i) prompt previous).1 with
  | none => simp only [iterBody, hr]
  | some trace =>
    rw [hr] at h
    have h2 : (trace == "") = true := by
      simpa [pyTruthy] using h
    simp [iterBody, hr, h2]

/-- When the reasoning capability answers a non-empty trace at iteration `i`,
the body never raises the fatal flag: every other outcome continues the
loop. -/
theorem iterBody_not_fatal (o : Oracle) (io : IterOracle) (i : Nat)
    (prompt : String) (previous : Option String) (st : PopState) (out : IterOutcome)
    (hok : ∀ p, pyTruthy (io.reasoning i p) = true)
    (h : iterBody o io i prompt previous st = some out) : out.fatal = false := by
  simp only [iterBody] at h
  cases hr : io.reasoning i (scheduleStep (io.lsPaths i) (io.choice i) prompt previous).1 with
  | none =>
    have hcon := hok (scheduleStep (io.lsPaths i) (io.choice i) prompt previous).1
    rw [hr] at hcon
    exact absurd hcon (by simp [pyTruthy])
  | some trace =>
    have htr : (trace == "") = false := by
      have hcon := hok (scheduleStep (io.lsPaths i) (io.choice i) prompt previous).1
      rw [hr] at hcon
      simpa [pyTruthy] using hcon
    simp only [hr] at h
    rw [if_neg (by simp [htr])] at h
    cases he : io.extract i trace with
    | none =>
      simp only [he] at h
      injection h with h
      rw [← h]
    | some kg =>
      simp only [he] at h
      by_cases hemp : kg.entities.isEmpty = true
      · rw [if_pos hemp] at h
        injection h with h
        rw [← h]
      · rw [if_neg hemp] at h
        cases hm : kgg_merge_knowledge_graph o st kg with
        | none => simp only [hm] at h; exact Option.noConfusion h
        | some p =>
          obtain ⟨st2, kg2⟩ := p
          simp only [hm] at h
          injection h with h
          rw [← h]

/-- When the reasoning capability answers a non-empty trace at every
iteration, a run that returns a result has completed every requested round. -/
theorem runIters_completed_all_ok (o : Oracle) (io : IterOracle)
    (hok : ∀ j p, pyTruthy (io.reasoning j p) = true) :
    ∀ (n i : Nat) (prompt : String) (previous : Option String) (st : PopState) (r : RunResult),
      runIters o io i n prompt previous st = some r → r.completed = n := by
  intro n
  induction n with
  | zero =>
    intro i p prev st r h
    unfold runIters at h
    injection h with h
    rw [← h]
  | succ n ih =>
    intro i p prev st r h
    unfold runIters at h
    cases hb : iterBody o io i p prev st with
    | none => simp only [hb] at h; exact Option.noConfusion h
    | some out =>
      simp only [hb] at h
      have hf := iterBody_not_fatal o io i p prev st out (hok i) hb
      simp only [hf, Bool.false_eq_true, if_false] at h
      cases hrec : runIters o io (i + 1) n out.prompt out.previous out.st with
      | none => simp only [hrec] at h; exact Option.noConfusion h
      | some r2 =>
        simp only [hrec] at h
        injection h with h
        rw [← h]
        simp [ih _ _ _ _ _ hrec]

/-- When the reasoning capability fails for the first time at iteration `k`, a
run reaching `k` breaks there: the result counts exactly `k` completed rounds
past the starting index. -/
theorem runIters_break_completed (o : Oracle) (io : IterOracle) (k : Nat)
    (hok : ∀ j, j < k → ∀ p, pyTruthy (io.reasoning j p) = true)
    (hfail : ∀ p, pyTruthy (io.reasoning k p) = false) :
    ∀ (n i : Nat) (prompt : String) (previous : Option String) (st : PopState) (r : RunResult),
      i ≤ k → k < i + n →
      runIters o io i n prompt previous st = some r → r.completed = k - i := by
  intro n
  induction n with
  | zero =>
    intro i p prev st r hik hki h
    exact absurd hki (by omega)
  | succ n ih =>
    intro i p prev st r hik hki h
    unfold runIters at h
    by_cases hk : i = k
    · subst hk
      simp only [iterBody_reasoning_falsy o io i p prev st (hfail _), if_true] at h
      injection h with h
      rw [← h]
      simp
    · have hik2 : i < k := lt_of_le_of_ne hik hk
      cases hb : iterBody o io i p prev st with
      | none => simp only [hb] at h; exact Option.noConfusion h
      | some out =>
        simp only [hb] at h
        have hf := iterBody_not_fatal o io i p prev st out (hok i hik2) hb
        simp only [hf, Bool.false_eq_true, if_false] at h
        cases hrec : runIters o io (i + 1) n out.prompt out.previous out.st with
        | none => simp only [hrec] at h; exact Option.noConfusion h
        | some r2 =>
          simp only [hrec] at h
          injection h with h
          rw [← h]
          have h2 := ih (i + 1) _ _ _ r2 (by omega) (by omega) hrec
          simp only [h2]
          omega

/-- When the reasoning capability fails for the first time at iteration `k`,
any two runs long enough to reach `k` coincide: the break truncates the run
at `k` regardless of the requested number of iterations. -/
theorem runIters_break_trunc (o : Oracle) (io : IterOracle) (k : Nat)
    (hok : ∀ j, j < k → ∀ p, pyTruthy (io.reasoning j p) = true)
    (hfail : ∀ p, pyTruthy (io.reasoning k p) = false) :
    ∀ (n m i : Nat) (prompt : String) (previous : Option String) (st : PopState),
      i ≤ k → k < i + n → k < i + m →
      runIters o io i n prompt previous st = runIters o io i m prompt previous st := by
  intro n
  induction n with
  | zero =>
    intro m i p prev st hik hkn hkm
    exact absurd hkn (by omega)
  | succ n ih =>
    intro m i p prev st hik hkn hkm
    cases m with
    | zero => exact absurd hkm (by omega)
    | succ m =>
      by_cases hk : i = k
      · subst hk
        unfold runIters
        rw [iterBody_reasoning_falsy o io i p prev st (hfail _)]
        rfl
      · have hik2 : i < k := lt_of_le_of_ne hik hk
        unfold runIters
        cases hb : iterBody o io i p prev st with
        | none => rfl
        | some out =>
          have hf := iterBody_not_fatal o io i p prev st out (hok i hik2) hb
          simp only [hf, Bool.false_eq_true, if_false]
          rw [ih m (i + 1) out.prompt out.previous out.st (by omega) (by omega) (by omega)]

/-! Claim theorems. -/

/-- Claim C1 (amended).  In GraphPopulationService.merge_knowledge_graph the
relationships are written only after every entity of the batch has been
resolved: the list submitted to the store is the input list rewritten with the
final name-rewrite map accumulated by the entity loop, so each endpoint equal
to a batch candidate's original name is rewritten to that candidate's final
canonical name before the write.  In the merge scenario (existing A, new B at
similarity 0.9, arbitration answering Merge into AB) the relationship B to C
is therefore submitted as AB to C — neither A to C nor B to C is ever
submitted.  Amendment, in two parts: endpoints equal to the existing node's
old name A are NOT rewritten (the rewrite map only records batch candidates'
original names), and because the merge rename never reaches the graph store
(the C3 tuple bug) no node named AB exists at write time, so the submitted
AB-to-C edge is dropped by create_relationship: the store's committed edge
set after the batch is exactly the single edge A to D. -/
theorem relationships_committed_after_entities (o : Oracle) (st : PopState)
    (kg : KnowledgeGraph) (st1 : PopState) (ents : List Entity)
    (updates : List (String × String))
    (h : processEntities o st kg.entities [] = some (st1, ents, updates)) :
    merge_knowledge_graph o st kg =
      some ((kg.relationships.map (rewriteRel updates)).foldl
              (fun s r => (add_relationship s r).1) st1,
            ⟨ents, kg.relationships.map (rewriteRel updates)⟩) ∧
    (merge_knowledge_graph scenarioOracle scenarioSt scenarioBatch).map
        (fun p => (p.2.relationships, p.1.db.edges)) =
      some ([⟨"AB", "C", "rel", []⟩, ⟨"A", "D", "rel", []⟩],
            [⟨"A", "D", "rel", []⟩]) := by
  constructor
  · unfold merge_knowledge_graph
    rw [h]
  · decide

/-- Claim C1 (counterexample).  In the merge scenario the store's committed
edge set does not contain AB to C — it is exactly the single edge A to D —
because the C3 bug leaves no node named AB for the rewritten edge to attach
to; and the batch relationship A to D keeps the existing node's old name
instead of being cascaded onto AB. -/
theorem old_name_references_not_cascaded :
    (merge_knowledge_graph scenarioOracle scenarioSt scenarioBatch).map
        (fun p => (p.1.db.edges.contains ⟨"AB", "C", "rel", []⟩,
                   p.1.db.edges,
                   p.2.relationships.contains ⟨"A", "D", "rel", []⟩,
                   p.2.relationships.contains ⟨"AB", "D", "rel", []⟩)) =
      some (false, [⟨"A", "D", "rel", []⟩], true, false) := by decide

/-- Claim C1 (witness).  The amended theorem applied to the concrete merge
scenario. -/
theorem relationships_committed_after_entities_witness :
    processEntities scenarioOracle scenarioSt scenarioBatch.entities [] =
      some (⟨scenarioDB, scenarioVS ++ [⟨"AB", "descAB"⟩]⟩,
            [⟨none, "A", "descA", ["Concept"]⟩, ⟨none, "AB", "descAB", ["Concept"]⟩],
            [("B", "AB")]) ∧
    merge_knowledge_graph scenarioOracle scenarioSt scenarioBatch =
      some ((scenarioBatch.relationships.map (rewriteRel [("B", "AB")])).foldl
              (fun s r => (add_relationship s r).1)
              ⟨scenarioDB, scenarioVS ++ [⟨"AB", "descAB"⟩]⟩,
            ⟨[⟨none, "A", "descA", ["Concept"]⟩, ⟨none, "AB", "descAB", ["Concept"]⟩],
             scenarioBatch.relationships.map (rewriteRel [("B", "AB")])⟩) := by
  refine ⟨by decide, ?_⟩
  exact (relationships_committed_after_entities scenarioOracle scenarioSt scenarioBatch
    ⟨scenarioDB, scenarioVS ++ [⟨"AB", "descAB"⟩]⟩
    [⟨none, "A", "descA", ["Concept"]⟩, ⟨none, "AB", "descAB", ["Concept"]⟩]
    [("B", "AB")] (by decide)).1

/-- Claim C3 (code bug).  In the merge scenario the engine is told to rename
the existing node A to AB with the merged description: the batch entity is
renamed to AB and the vector store gains a row under AB, but the graph store
still holds the node under its old name A with its old description and no
node named AB exists, because update_node_name_and_description passes a tuple
of two strings instead of one query string to the driver and swallows the
resulting error.  The intended single-string query would have renamed the
node, as the last conjunct shows. -/
theorem merge_rename_never_reaches_graph_store :
    (add_entity scenarioOracle scenarioSt entityB).map
        (fun r => (r.st.db.nodes.map Node.name, r.entity.name, r.entity.description,
                   r.st.vs.map VecRow.entity_name)) =
      some (["A", "C", "D"], "AB", "descAB", ["A", "C", "D", "AB"]) ∧
    update_node_name_and_description scenarioDB "A" "AB" "descAB" = scenarioDB ∧
    (update_node_name_and_description_intended scenarioDB "A" "AB" "descAB").nodes.map
        Node.name = ["AB", "C", "D"] := by
  refine ⟨by decide, rfl, by decide⟩

/-- Claim C5.  A relationship whose source or target name resolves to no
stored node is dropped: the edge set is unchanged (nothing is attached to a
wrong node), add_relationship still returns success without raising, and
merge_knowledge_graph processes the full relationship list of the batch. -/
theorem dangling_relationship_dropped (db : GraphDB) (r : Relationship)
    (h : (∀ n ∈ db.nodes, n.name ≠ r.source_entity_name) ∨
         (∀ n ∈ db.nodes, n.name ≠ r.target_entity_name)) :
    create_relationship db r = db ∧
    (∀ vs : VecStore, add_relationship ⟨db, vs⟩ r = (⟨db, vs⟩, true)) ∧
    (∀ (o : Oracle) (st : PopState) (kg : KnowledgeGraph) (st2 : PopState)
        (kg2 : KnowledgeGraph),
      merge_knowledge_graph o st kg = some (st2, kg2) →
      kg2.relationships.length = kg.relationships.length) := by
  have hc : (db.nodes.any (fun n => n.name == r.source_entity_name) &&
      db.nodes.any (fun n => n.name == r.target_entity_name)) = false := by
    rcases h with h | h
    · have hs : db.nodes.any (fun n => n.name == r.source_entity_name) = false := by
        rw [List.any_eq_false]
        intro n hn
        simpa using h n hn
      simp [hs]
    · have ht : db.nodes.any (fun n => n.name == r.target_entity_name) = false := by
        rw [List.any_eq_false]
        intro n hn
        simpa using h n hn
      simp [ht]
  have h1 : create_relationship db r = db := by
    unfold create_relationship
    rw [if_neg (by simp [hc])]
  refine ⟨h1, ?_, ?_⟩
  · intro vs
    unfold add_relationship
    rw [h1]
  · intro o st kg st2 kg2 hm
    unfold merge_knowledge_graph at hm
    cases hp : processEntities o st kg.entities [] with
    | none => simp only [hp] at hm; exact Option.noConfusion hm
    | some t =>
      obtain ⟨st1, ents, updates⟩ := t
      simp only [hp, Option.some.injEq, Prod.mk.injEq] at hm
      obtain ⟨-, h2⟩ := hm
      rw [← h2]
      simp

/-- Claim C5 (witness).  The relationship X to C, whose source X has no node
in the scenario graph, is dropped and the writer reports success. -/
theorem dangling_relationship_dropped_witness :
    (scenarioDB.nodes.all fun n => !(n.name == "X")) = true ∧
    create_relationship scenarioDB relXC = scenarioDB ∧
    add_relationship ⟨scenarioDB, scenarioVS⟩ relXC = (⟨scenarioDB, scenarioVS⟩, true) := by
  have h := dangling_relationship_dropped scenarioDB relXC (Or.inl (by decide))
  exact ⟨by decide, h.1, h.2.1 scenarioVS⟩

/-- Claim C6.  Node creation by name is idempotent through the engine: when
the entity's name already has a node in the graph store (and stored element
ids are non-empty strings, as the driver guarantees), any successful
add_entity call leaves the stored name list exactly as it was — no second node
for that name, the second add is a no-op merge onto the existing node. -/
theorem idempotent_entity_add (o : Oracle) (st : PopState) (e : Entity) (r : AddResult)
    (hwf : ∀ n ∈ st.db.nodes, n.nid ≠ "")
    (hmem : e.name ∈ st.db.nodes.map Node.name)
    (hres : add_entity o st e = some r) :
    r.st.db.nodes.map Node.name = st.db.nodes.map Node.name := by
  have hpt : ∀ ex : Entity, get_node_by_name st.db ex.name = some ex →
      pyTruthy ex.id = true := by
    intro ex hg
    obtain ⟨n, hn, hnm, hid, hexn⟩ := mem_names_of_get st.db ex.name ex hg
    rw [hid]
    simpa [pyTruthy] using hwf n hn
  unfold add_entity at hres
  cases hb : bestMatch o e with
  | none =>
    simp only [hb, Option.some.injEq] at hres
    rw [← hres]
    exact createStep_preserves_names o st e none false (Or.inr hmem)
  | some best =>
    simp only [hb] at hres
    by_cases h1 : best.score ≥ AUTO_MERGE_THRESHOLD ∧ e.name ≠ best.name
    · rw [if_pos h1] at hres
      cases hg : get_node_by_name st.db best.name with
      | none => simp only [hg] at hres; exact Option.noConfusion hres
      | some ex =>
        simp only [hg, Option.some.injEq] at hres
        obtain ⟨n, hn, hnm, hid, hexn⟩ := mem_names_of_get st.db best.name ex hg
        have hpt2 : pyTruthy ex.id = true := by
          rw [hid]
          simpa [pyTruthy] using hwf n hn
        rw [← hres]
        exact createStep_preserves_names o st _ ex.id false (Or.inl hpt2)
    · rw [if_neg h1] at hres
      by_cases h2 : best.score ≥ ARBITRATION_THRESHOLD
      · rw [if_pos h2] at hres
        cases hg : get_node_by_name st.db best.name with
        | none => simp only [hg] at hres; exact Option.noConfusion hres
        | some ex =>
          simp only [hg] at hres
          obtain ⟨n, hn, hnm, hid, hexn⟩ := mem_names_of_get st.db best.name ex hg
          have hpt2 : pyTruthy ex.id = true := by
            rw [hid]
            simpa [pyTruthy] using hwf n hn
          by_cases hsame : ((resolve_entity_conflict o ex e).action == some "same") = true
          · rw [if_pos hsame] at hres
            injection hres with hres
            rw [← hres]
            exact createStep_preserves_names o st _ ex.id true (Or.inl hpt2)
          · rw [if_neg hsame] at hres
            by_cases hmerge : ((resolve_entity_conflict o ex e).action == some "merge") = true
            · rw [if_pos hmerge] at hres
              injection hres with hres
              rw [← hres]
              exact createStep_preserves_names o _ _ ex.id true (Or.inl hpt2)
            · rw [if_neg hmerge] at hres
              injection hres with hres
              rw [← hres]
              exact createStep_preserves_names o st e none true (Or.inr hmem)
      · rw [if_neg h2] at hres
        injection hres with hres
        rw [← hres]
        exact createStep_preserves_names o st e none false (Or.inr hmem)

/-- Claim C6 (witness).  Adding the already-stored entity A to the scenario
graph a second time leaves the stored names untouched. -/
theorem idempotent_entity_add_witness :
    (scenarioDB.nodes.all fun n => !(n.nid == "")) = true ∧
    ("A" ∈ scenarioDB.nodes.map Node.name) ∧
    (add_entity scenarioOracle scenarioSt entityA).map
        (fun r => r.st.db.nodes.map Node.name) =
      some (scenarioDB.nodes.map Node.name) := by
  refine ⟨by decide, by decide, ?_⟩
  cases hres : add_entity scenarioOracle scenarioSt entityA with
  | none => exact absurd hres (by decide)
  | some r =>
    simp only [Option.map_some', Option.some.injEq]
    exact idempotent_entity_add scenarioOracle scenarioSt entityA r (by decide) (by decide) hres

/-- Claim C2.  Threshold policy of add_entity, for a pooled best match whose
node exists with a truthy id: when the best score is at least 0.975 and the
names differ, the candidate is aliased to the matched name, the Conflict
Arbiter is not invoked, the stores are untouched and no node is created (the
returned id is the existing node's); when the best score lies in the
ambiguous zone at or above 0.85 but below 0.975, the engine fetches the
existing node and invokes the Conflict Arbiter. -/
theorem threshold_policy (o : Oracle) (st : PopState) (e : Entity)
    (best : SimMatch) (ex : Entity)
    (hbest : bestMatch o e = some best)
    (hex : get_node_by_name st.db best.name = some ex)
    (hid : pyTruthy ex.id = true) :
    (best.score ≥ AUTO_MERGE_THRESHOLD → e.name ≠ best.name →
      add_entity o st e = some ⟨st, { e with name := best.name }, ex.id, false⟩) ∧
    (ARBITRATION_THRESHOLD ≤ best.score → best.score < AUTO_MERGE_THRESHOLD →
      ∃ r, add_entity o st e = some r ∧ r.arbiterCalled = true) := by
  constructor
  · intro hsc hne
    unfold add_entity
    rw [hbest]
    simp only [if_pos (And.intro hsc hne), hex]
    unfold createStep
    rw [if_pos hid]
  · intro hhigh hlow
    rw [add_entity_arbitration_branch o st e best ex hbest hlow hhigh hex]
    by_cases hsame : ((resolve_entity_conflict o ex e).action == some "same") = true
    · rw [if_pos hsame]
      exact ⟨_, rfl, createStep_arb o st _ ex.id true⟩
    · rw [if_neg hsame]
      by_cases hmerge : ((resolve_entity_conflict o ex e).action == some "merge") = true
      · rw [if_pos hmerge]
        exact ⟨_, rfl, createStep_arb o _ _ ex.id true⟩
      · rw [if_neg hmerge]
        exact ⟨_, rfl, createStep_arb o st e none true⟩

/-- Claim C2 (witness).  At similarity exactly 0.975 the candidate B is
aliased onto A without arbitration and without touching the stores; at 0.974
the arbiter is invoked. -/
theorem threshold_policy_witness :
    add_entity oracleAt975 scenarioSt entityB =
      some ⟨scenarioSt, { entityB with name := "A" }, some "0", false⟩ ∧
    (add_entity oracleAt974 scenarioSt entityB).map AddResult.arbiterCalled = some true := by
  constructor
  · exact (threshold_policy oracleAt975 scenarioSt entityB
      ⟨"A", "descA", AUTO_MERGE_THRESHOLD⟩ ⟨some "0", "A", "descA", ["Concept"]⟩
      (by decide) (by decide) (by decide)).1 (by decide) (by decide)
  · obtain ⟨r, hr, harb⟩ := (threshold_policy oracleAt974 scenarioSt entityB
      ⟨"A", "descA", score0974⟩ ⟨some "0", "A", "descA", ["Concept"]⟩
      (by decide) (by decide) (by decide)).2 (by decide) (by decide)
    rw [hr, Option.map_some', harb]

/-- Claim C4.  When the arbitration capability returns nothing (an API error
or unparsable output), resolve_entity_conflict returns the synthetic Distinct
resolution instead of raising, and add_entity then commits the candidate as a
new node under its own name and fresh id, so the graph afterwards holds both
the existing node's name and the candidate's name. -/
theorem fail_open_arbitration (o : Oracle) (st : PopState) (e : Entity)
    (best : SimMatch) (ex : Entity)
    (hbest : bestMatch o e = some best)
    (hhigh : ARBITRATION_THRESHOLD ≤ best.score)
    (hlow : best.score < AUTO_MERGE_THRESHOLD)
    (hex : get_node_by_name st.db best.name = some ex)
    (harb : o.arbitrate ex e = none)
    (hfresh : e.name ∉ st.db.nodes.map Node.name)
    (hcat : e.category ≠ []) :
    resolve_entity_conflict o ex e = failedResolution ∧
    ∃ r, add_entity o st e = some r ∧
      r.arbiterCalled = true ∧
      r.entity_id = some (toString st.db.nextId) ∧
      r.entity.name = e.name ∧
      r.st.db.nodes.map Node.name = st.db.nodes.map Node.name ++ [e.name] ∧
      best.name ∈ r.st.db.nodes.map Node.name := by
  have hresolve : resolve_entity_conflict o ex e = failedResolution := by
    unfold resolve_entity_conflict
    rw [harb]
  refine ⟨hresolve, ?_⟩
  rw [add_entity_arbitration_branch o st e best ex hbest hlow hhigh hex]
  rw [hresolve]
  rw [if_neg (by decide), if_neg (by decide)]
  have hcreate := create_node_fresh st.db e hfresh hcat
  have hstep : createStep o st e none true =
      ⟨⟨(create_node st.db e).1, embed_entity o st.vs e.name e.description⟩,
       e, (create_node st.db e).2, true⟩ := by
    unfold createStep
    rw [if_neg (by simp [pyTruthy])]
    rcases hc : create_node st.db e with ⟨db2, nid⟩
    rw [hcreate] at hc
    injection hc with hc1 hc2
    rw [← hc1, ← hc2]
  rw [hstep, hcreate]
  refine ⟨_, rfl, rfl, rfl, rfl, ?_, ?_⟩
  · simp
  · obtain ⟨n, hn, hnm, -, -⟩ := mem_names_of_get st.db best.name ex hex
    simp only [List.map_append]
    exact List.mem_append_left _ (List.mem_map.mpr ⟨n, hn, hnm⟩)

/-- Claim C4 (witness).  With arbitration answering nothing at similarity
0.974, the candidate B is committed as a new node beside A. -/
theorem fail_open_arbitration_witness :
    resolve_entity_conflict oracleAt974 ⟨some "0", "A", "descA", ["Concept"]⟩ entityB =
      failedResolution ∧
    (add_entity oracleAt974 scenarioSt entityB).map
        (fun r => (r.arbiterCalled, r.entity_id, r.entity.name,
                   r.st.db.nodes.map Node.name)) =
      some (true, some "3", "B", ["A", "C", "D", "B"]) := by
  obtain ⟨hres, r, hadd, ha1, ha2, ha3, ha4, -⟩ :=
    fail_open_arbitration oracleAt974 scenarioSt entityB
      ⟨"A", "descA", score0974⟩ ⟨some "0", "A", "descA", ["Concept"]⟩
      (by decide) (by decide) (by decide) (by decide) (by decide) (by decide) (by decide)
  refine ⟨hres, ?_⟩
  rw [hadd, Option.map_some', ha1, ha2, ha3, ha4]
  rfl

/-- Claim C7 (amended).  When arbitration answers Distinct, the candidate (not
the existing node) is renamed to the suggested name — but the gate is the
suggestion's LENGTH, not a comparison with the existing name: with a
new_name longer than three characters the candidate is renamed, its
batch relationships are cascaded and it is re-embedded under the new name;
with a new_name of three or fewer characters, or with no new_name, everything
is left unchanged and the candidate is later created under its original
name. -/
theorem distinct_rename_length_gate (o : Oracle) (st : PopState) (kg : KnowledgeGraph)
    (existing ne : Entity) (res : ConflictResolutionResult)
    (harb : o.arbitrate existing ne = some res)
    (hact : res.action = some "distinct") :
    (∀ s, res.new_name = some s → s.length > 3 →
       resolve_entity_insertion_conflict o st kg existing ne =
         (update_entity o st ne.name s (pyOr res.new_description ne.description),
          { kg with relationships := rewriteEndpoints ne.name s kg.relationships },
          { ne with name := s })) ∧
    (∀ s, res.new_name = some s → s.length ≤ 3 →
       resolve_entity_insertion_conflict o st kg existing ne = (st, kg, ne)) ∧
    (res.new_name = none →
       resolve_entity_insertion_conflict o st kg existing ne = (st, kg, ne)) := by
  have hsame : (res.action == some "same") = false := by rw [hact]; decide
  have hmerge : (res.action == some "merge") = false := by rw [hact]; decide
  have hdist : (res.action == some "distinct") = true := by rw [hact]; decide
  refine ⟨?_, ?_, ?_⟩
  · intro s hs hlen
    unfold resolve_entity_insertion_conflict
    simp only [harb, hsame, hmerge, hdist, hs, Bool.false_eq_true, if_false, if_true]
    rw [if_pos]
    constructor
    · intro heq
      rw [heq] at hlen
      exact absurd hlen (by decide)
    · exact hlen
  · intro s hs hlen
    unfold resolve_entity_insertion_conflict
    simp only [harb, hsame, hmerge, hdist, hs, Bool.false_eq_true, if_false, if_true]
    rw [if_neg]
    intro hcon
    exact absurd hcon.2 (by omega)
  · intro hs
    unfold resolve_entity_insertion_conflict
    simp only [harb, hsame, hmerge, hdist, hs, Bool.false_eq_true, if_false, if_true]

/-- Claim C7 (counterexample).  Arbitration answers Distinct with the present
suggestion Xy, which differs from the existing name Alpha; the claim requires
the candidate to be renamed to Xy, yet the code leaves it named B because the
suggestion has only two characters. -/
theorem distinct_rename_counterexample :
    oracleDistinctShort.arbitrate exAlpha entityB =
      some ⟨some "unsure", some "distinct", some "Xy", none⟩ ∧
    ("Xy" ≠ exAlpha.name) ∧
    (resolve_entity_insertion_conflict oracleDistinctShort scenarioSt kgBC exAlpha
        entityB).2.2.name = "B" ∧
    ("B" ≠ "Xy") := by decide

/-- Claim C7 (witness).  The length gate at work: the five-character
suggestion Beta5 renames the candidate and cascades its relationship, the
two-character suggestion Xy changes nothing. -/
theorem distinct_rename_length_gate_witness :
    resolve_entity_insertion_conflict oracleDistinctLong scenarioSt kgBC exAlpha entityB =
      (update_entity oracleDistinctLong scenarioSt "B" "Beta5" "descBeta",
       { kgBC with relationships := rewriteEndpoints "B" "Beta5" kgBC.relationships },
       { entityB with name := "Beta5" }) ∧
    resolve_entity_insertion_conflict oracleDistinctShort scenarioSt kgBC exAlpha entityB =
      (scenarioSt, kgBC, entityB) := by
  constructor
  · have h := (distinct_rename_length_gate oracleDistinctLong scenarioSt kgBC exAlpha
      entityB ⟨some "rename", some "distinct", some "Beta5", some "descBeta"⟩ rfl rfl).1
      "Beta5" rfl (by decide)
    simpa using h
  · exact (distinct_rename_length_gate oracleDistinctShort scenarioSt kgBC exAlpha
      entityB ⟨some "unsure", some "distinct", some "Xy", none⟩ rfl rfl).2.1
      "Xy" rfl (by decide)

/-- Claim C8.  The exploration scheduler: with a non-empty path set it picks
the chosen path and returns one of its two endpoints, never returning an
endpoint equal to the previous target when the chosen path offers an
alternative endpoint; with an absent or empty path set, the caller-supplied
prompt and the previous target pass through unchanged. -/
theorem scheduler_endpoint_policy (ps : List LSPath) (c : Nat) (prompt : String)
    (previous : Option String) (path : LSPath) (hlen : 0 < ps.length)
    (hpath : ps.get ⟨c % ps.length, Nat.mod_lt c hlen⟩ = path) :
    (∃ t, (scheduleStep (some ps) c prompt previous).2 = some t ∧
       (t = path.startNodeName ∨ t = path.endNodeName)) ∧
    (∀ prev, previous = some prev →
       (path.startNodeName ≠ prev ∨ path.endNodeName ≠ prev) →
       ¬ (scheduleStep (some ps) c prompt previous).2 = some prev) ∧
    scheduleStep none c prompt previous = (prompt, previous) ∧
    scheduleStep (some []) c prompt previous = (prompt, previous) := by
  have hstep : scheduleStep (some ps) c prompt previous =
      (explorationPrompt
         (if previous == some path.endNodeName then path.startNodeName else path.endNodeName)
         (if previous == some path.endNodeName then path.startNodeDescription
          else path.endNodeDescription),
       some (if previous == some path.endNodeName then path.startNodeName
             else path.endNodeName)) := by
    simp only [scheduleStep]
    rw [dif_pos hlen]
    simp only [hpath]
    by_cases hp : (previous == some path.endNodeName) = true
    · rw [if_pos hp, if_pos hp, if_pos hp]
    · rw [if_neg hp, if_neg hp, if_neg hp]
  refine ⟨?_, ?_, rfl, rfl⟩
  · rw [hstep]
    by_cases hp : (previous == some path.endNodeName) = true
    · exact ⟨path.startNodeName, by rw [if_pos hp], Or.inl rfl⟩
    · exact ⟨path.endNodeName, by rw [if_neg hp], Or.inr rfl⟩
  · intro prev hprev halt
    rw [hstep]
    subst hprev
    by_cases hp : ((some prev : Option String) == some path.endNodeName) = true
    · have hend : path.endNodeName = prev := by
        have hp2 := hp
        simp only [beq_iff_eq, Option.some.injEq] at hp2
        exact hp2.symm
      have hstart : path.startNodeName ≠ prev := by
        rcases halt with halt | halt
        · exact halt
        · exact absurd hend halt
      rw [if_pos hp]
      simp only [Option.some.injEq]
      exact hstart
    · have hend : path.endNodeName ≠ prev := by
        intro hcon
        exact hp (by simp [hcon])
      rw [if_neg hp]
      simp only [Option.some.injEq]
      exact hend

/-- Claim C8 (witness).  A single path from S to E with previous target E: the
scheduler returns S, an endpoint of the path different from E. -/
theorem scheduler_endpoint_policy_witness :
    (0 < [pathSE].length) ∧
    ("S" = pathSE.startNodeName ∨ "S" = pathSE.endNodeName) ∧
    (scheduleStep (some [pathSE]) 0 "p" (some "E")).2 = some "S" ∧
    ¬ (scheduleStep (some [pathSE]) 0 "p" (some "E")).2 = some "E" :=
  ⟨by decide, Or.inl rfl, by decide,
   (scheduler_endpoint_policy [pathSE] 0 "p" (some "E") pathSE (by decide) rfl).2.1
     "E" rfl (Or.inl (by decide))⟩

/-- Claim C9.  Loop policy of run_kg_generation_iterations: when the
reasoning capability answers a truthy (non-empty) trace at every iteration, a
run that returns completed exactly the requested number of rounds; when the
trace is first falsy — absent or empty, which Python's
`if not reasoning_trace` treats alike — at iteration k before the end, the run
is identical to the run truncated right after k: the loop stops at once,
without retry, completing exactly k rounds; and an iteration whose extraction
returns nothing, or a batch without entities, is non-fatal: the body keeps the
stores untouched and continues with the exploration state produced by that
iteration's scheduling step. -/
theorem iteration_loop_policy (o : Oracle) (io : IterOracle) (maxIters : Nat)
    (prompt : String) (previous : Option String) (st : PopState) :
    ((∀ j p, pyTruthy (io.reasoning j p) = true) →
       ∀ r, runIters o io 0 maxIters prompt previous st = some r →
         r.completed = maxIters) ∧
    (∀ k, (∀ j, j < k → ∀ p, pyTruthy (io.reasoning j p) = true) →
       (∀ p, pyTruthy (io.reasoning k p) = false) → k < maxIters →
       runIters o io 0 maxIters prompt previous st =
         runIters o io 0 (k + 1) prompt previous st ∧
       ∀ r, runIters o io 0 maxIters prompt previous st = some r → r.completed = k) ∧
    (∀ i trace,
       io.reasoning i (scheduleStep (io.lsPaths i) (io.choice i) prompt previous).1 =
         some trace →
       (trace == "") = false →
       (io.extract i trace = none ∨
        ∃ kg, io.extract i trace = some kg ∧ kg.entities = []) →
       iterBody o io i prompt previous st =
         some ⟨(scheduleStep (io.lsPaths i) (io.choice i) prompt previous).1,
               (scheduleStep (io.lsPaths i) (io.choice i) prompt previous).2,
               st, false⟩) := by
  refine ⟨?_, ?_, ?_⟩
  · intro hok r h
    exact runIters_completed_all_ok o io hok maxIters 0 prompt previous st r h
  · intro k hok hfail hkm
    constructor
    · exact runIters_break_trunc o io k hok hfail maxIters (k + 1) 0 prompt previous st
        (by omega) (by omega) (by omega)
    · intro r h
      have := runIters_break_completed o io k hok hfail maxIters 0 prompt previous st r
        (by omega) (by omega) h
      simpa using this
  · intro i trace htrace htr hext
    simp only [iterBody, htrace]
    rw [if_neg (by simp [htr])]
    rcases hext with hext | ⟨kg, hext, hemp⟩
    · rw [hext]
    · simp only [hext, hemp, List.isEmpty_nil, if_true]

/-- Claim C9 (witness).  With reasoning always answering a non-empty trace
and extraction always empty, a 2-iteration run completes 2 rounds; with
reasoning answering the empty (falsy) trace from iteration 1 on, a
3-iteration run equals the 2-iteration run and completes exactly 1 round; and
an iteration with an empty extraction leaves the stores untouched. -/
theorem iteration_loop_policy_witness :
    ((runIters scenarioOracle ioAlways 0 2 "p" none scenarioSt).map
        RunResult.completed = some 2) ∧
    (runIters scenarioOracle ioFailAt1 0 3 "p" none scenarioSt =
       runIters scenarioOracle ioFailAt1 0 2 "p" none scenarioSt) ∧
    ((runIters scenarioOracle ioFailAt1 0 3 "p" none scenarioSt).map
        RunResult.completed = some 1) ∧
    (iterBody scenarioOracle ioAlways 0 "p" none scenarioSt =
       some ⟨(scheduleStep (ioAlways.lsPaths 0) (ioAlways.choice 0) "p" none).1,
             (scheduleStep (ioAlways.lsPaths 0) (ioAlways.choice 0) "p" none).2,
             scenarioSt, false⟩) := by
  have hok : ∀ j p, pyTruthy (ioAlways.reasoning j p) = true := by
    intro j p
    rfl
  have hok1 : ∀ j, j < 1 → ∀ p, pyTruthy (ioFailAt1.reasoning j p) = true := by
    intro j hj p
    have : j = 0 := by omega
    subst this
    rfl
  have hfail1 : ∀ p, pyTruthy (ioFailAt1.reasoning 1 p) = false := by
    intro p
    rfl
  refine ⟨?_, ?_, ?_, ?_⟩
  · cases hres : runIters scenarioOracle ioAlways 0 2 "p" none scenarioSt with
    | none => exact absurd hres (by decide)
    | some r =>
      rw [Option.map_some']
      rw [(iteration_loop_policy scenarioOracle ioAlways 2 "p" none scenarioSt).1 hok r hres]
  · exact ((iteration_loop_policy scenarioOracle ioFailAt1 3 "p" none scenarioSt).2.1
      1 hok1 hfail1 (by omega)).1
  · cases hres : runIters scenarioOracle ioFailAt1 0 3 "p" none scenarioSt with
    | none => exact absurd hres (by decide)
    | some r =>
      rw [Option.map_some']
      rw [((iteration_loop_policy scenarioOracle ioFailAt1 3 "p" none scenarioSt).2.1
        1 hok1 hfail1 (by omega)).2 r hres]
  · exact (iteration_loop_policy scenarioOracle ioAlways 0 "p" none scenarioSt).2.2
      0 "trace" rfl rfl (Or.inl rfl)

/-- Claim C10.  Frame effect of a Merge resolution on the similarity index:
when the merged canonical name differs from the existing node's name and both
embeddings succeed, add_entity upserts a row under the new name and leaves the
row stored under the superseded old name exactly as it was — the population
path never deletes a row, so every previously stored name is still stored and
the old name remains matchable beside the new entry. -/
theorem merge_keeps_old_vector_row (o : Oracle) (st : PopState) (e : Entity)
    (best : SimMatch) (ex : Entity) (res : ConflictResolutionResult)
    (hbest : bestMatch o e = some best)
    (hhigh : ARBITRATION_THRESHOLD ≤ best.score)
    (hlow : best.score < AUTO_MERGE_THRESHOLD)
    (hex : get_node_by_name st.db best.name = some ex)
    (harb : o.arbitrate ex e = some res)
    (hact : res.action = some "merge")
    (hid : pyTruthy ex.id = true)
    (hnn : (pyOr res.new_name ex.name == ex.name) = false)
    (hemb1 : o.embedOk (pyOr res.new_name ex.name) = true)
    (hemb2 : o.embedOk (pyOr res.new_description ex.description) = true) :
    ∃ r, add_entity o st e = some r ∧
      r.st.vs.find? (fun row => row.entity_name == ex.name) =
        st.vs.find? (fun row => row.entity_name == ex.name) ∧
      r.st.vs.find? (fun row => row.entity_name == pyOr res.new_name ex.name) =
        some ⟨pyOr res.new_name ex.name, pyOr res.new_description ex.description⟩ ∧
      (∀ row ∈ st.vs, row.entity_name ∈ r.st.vs.map VecRow.entity_name) := by
  have hresolve : resolve_entity_conflict o ex e = res := by
    unfold resolve_entity_conflict
    rw [harb]
  have hsame : (res.action == some "same") = false := by rw [hact]; decide
  have hmerge : (res.action == some "merge") = true := by rw [hact]; decide
  rw [add_entity_arbitration_branch o st e best ex hbest hlow hhigh hex, hresolve]
  rw [if_neg (by simp [hsame]), if_pos hmerge]
  have hstep : ∀ st2 : PopState, ∀ e2 : Entity,
      createStep o st2 e2 ex.id true = ⟨st2, e2, ex.id, true⟩ := by
    intro st2 e2
    unfold createStep
    rw [if_pos hid]
  rw [hstep]
  rw [embed_entity_ok o st.vs _ _ hemb1 hemb2]
  refine ⟨_, rfl, ?_, ?_, ?_⟩
  · exact insert_embedding_find_other st.vs _ _ ex.name hnn
  · exact insert_embedding_find_self st.vs _ _
  · intro row hrow
    rcases insert_embedding_names st.vs (pyOr res.new_name ex.name)
        (pyOr res.new_description ex.description) with hn | hn
    · rw [hn]
      exact List.mem_map.mpr ⟨row, hrow, rfl⟩
    · rw [hn]
      exact List.mem_append_left _ (List.mem_map.mpr ⟨row, hrow, rfl⟩)

/-- Claim C10 (witness).  In the merge scenario the row of the old name A is
untouched, the row of the new name AB is present, and no stored name is
lost. -/
theorem merge_keeps_old_vector_row_witness :
    (add_entity scenarioOracle scenarioSt entityB).map
        (fun r => (r.st.vs.find? (fun row => row.entity_name == "A"),
                   r.st.vs.find? (fun row => row.entity_name == "AB"))) =
      some (scenarioVS.find? (fun row => row.entity_name == "A"),
            some ⟨"AB", "descAB"⟩) := by
  obtain ⟨r, hadd, h1, h2, -⟩ :=
    merge_keeps_old_vector_row scenarioOracle scenarioSt entityB
      ⟨"A", "descA", score09⟩ ⟨some "0", "A", "descA", ["Concept"]⟩ mergeResolution
      (by decide) (by decide) (by decide) (by decide) (by decide) rfl (by decide)
      (by decide) rfl rfl
  simp only [show (⟨some "0", "A", "descA", ["Concept"]⟩ : Entity).name = "A" from rfl,
    show pyOr mergeResolution.new_name "A" = "AB" by decide,
    show pyOr mergeResolution.new_description
      (⟨some "0", "A", "descA", ["Concept"]⟩ : Entity).description = "descAB" by decide] at h1 h2
  rw [hadd, Option.map_some', h1, h2]
  decide

end AGDR
